import Mathlib

/-!
Verification of the huma request-ingestion engine against its specification.

The repository's visible sources are `huma_test.go` (tests of the core engine)
and the two router adapters `humagin` / `humafiber`.  The adapters are embedded
directly from their source.  The core engine (Schema Registry, Validator,
Parameter Binder, Resolver pipeline, Request Orchestrator) is not among the
visible sources, so those components are modelled from the specification
(spec.md sections 3-4) and checked against the behaviour the tests pin down.
Machine integers are modelled as `Int`/`Nat`; JSON numbers as `Int` (every
numeric value exercised by the tests is integral); floating-point parameter
values as `Rat` (exact for the values involved, e.g. 135).
-/

/-- Modelled from the spec: the untyped decoded value tree handled by the
Validator ("maps, sequences, scalars, null", spec section 4.2).  Object fields
are an ordered association list, matching the deterministic traversal order the
spec requires. -/
inductive JSONValue where
  | null
  | boolean (b : Bool)
  | num (n : Int)
  | str (s : String)
  | arr (items : List JSONValue)
  | obj (fields : List (String × JSONValue))

/-- Modelled from the spec: one segment of a Path Tracker location, either an
object field name or a sequence index (spec section 3, Path Tracker). -/
inductive Seg where
  | field (s : String)
  | index (i : Nat)

/-- Modelled from the spec: the Path Tracker is a stack of segments; we model
it as the list of currently open segments. -/
abbrev PathBuffer := List Seg

/-- Renders one non-leading segment: `.name` for fields, `[i]` for indices. -/
def renderSeg : Seg → String
  | Seg.field s => "." ++ s
  | Seg.index i => "[" ++ toString i ++ "]"

/-- Modelled from the spec: `render()` yields the canonical location string,
dot-separated field names and bracketed indices, e.g. `body.field1.foo[0]`
(spec section 3, Path Tracker).  The leading segment carries no dot. -/
def render : PathBuffer → String
  | [] => ""
  | Seg.field s :: rest => s ++ String.join (rest.map renderSeg)
  | Seg.index i :: rest => "[" ++ toString i ++ "]" ++ String.join (rest.map renderSeg)

/-- PathBuffer.With renders the current prefix extended with one more field
name, as used by path-aware resolvers (`prefix.With("field2")` in the tests). -/
def PathBuffer.With (pb : PathBuffer) (name : String) : String :=
  render pb ++ "." ++ name

/-- ErrorDetail from spec section 3: `{message, location?, value?}`,
immutable once constructed. -/
structure ErrorDetail where
  message : String
  location : Option String := none
  value : Option JSONValue := none

/-- Modelled from the spec: the Schema data model (spec section 3).  One
constructor per kind; the constraint vocabulary carried here is the part the
claims exercise (`minLength`/`maxLength` on strings, `minimum`/`maximum`/
`multipleOf` on numbers, ordered `properties` plus `required` on objects,
`items` on arrays,
and named references used to break cycles). -/
inductive Schema where
  | string (minLength maxLength : Option Nat)
  | number (minimum maximum multipleOf : Option Int)
  | boolean
  | null
  | array (items : Schema)
  | object (properties : List (String × Schema)) (required : List String)
  | ref (name : String)

/-- Returns the properties of an object schema (empty for other kinds). -/
def schemaProperties : Schema → List (String × Schema)
  | Schema.object props _ => props
  | _ => []

/-- Name of a schema's kind, used in wrong-type error messages. -/
def schemaKindName : Schema → String
  | Schema.string _ _ => "string"
  | Schema.number _ _ _ => "number"
  | Schema.boolean => "boolean"
  | Schema.null => "null"
  | Schema.array _ => "array"
  | Schema.object _ _ => "object"
  | Schema.ref _ => "reference"

/-- Looks up a field by name in a decoded object's association list. -/
def lookupField : List (String × JSONValue) → String → Option JSONValue
  | [], _ => none
  | (k, x) :: rest, n => if k = n then some x else lookupField rest n

/-- Modelled from the spec: string constraint checks.  Each declared
constraint is applied independently and each violation appends one
ErrorDetail carrying the location and the offending value (spec section 4.2).
Messages follow the engine's wire messages pinned by `TestExhaustiveErrors`
(`expected length <= 10`). -/
def checkString (minL maxL : Option Nat) (pb : PathBuffer) (s : String) : List ErrorDetail :=
  (match minL with
   | some n =>
       if s.length < n then
         [{ message := "expected length >= " ++ toString n
            location := some (render pb), value := some (JSONValue.str s) }]
       else []
   | none => []) ++
  (match maxL with
   | some n =>
       if s.length > n then
         [{ message := "expected length <= " ++ toString n
            location := some (render pb), value := some (JSONValue.str s) }]
       else []
   | none => [])

/-- Modelled from the spec: numeric constraint checks (`minimum`, `maximum`,
`multipleOf`, spec section 3), each applied independently like the string
checks.  Bound messages follow `TestExhaustiveErrors`
(`expected number >= 1`). -/
def checkNumber (lo hi mo : Option Int) (pb : PathBuffer) (v : Int) : List ErrorDetail :=
  (match lo with
   | some n =>
       if v < n then
         [{ message := "expected number >= " ++ toString n
            location := some (render pb), value := some (JSONValue.num v) }]
       else []
   | none => []) ++
  (match hi with
   | some n =>
       if v > n then
         [{ message := "expected number <= " ++ toString n
            location := some (render pb), value := some (JSONValue.num v) }]
       else []
   | none => []) ++
  (match mo with
   | some m =>
       if v % m ≠ 0 then
         [{ message := "expected number to be a multiple of " ++ toString m
            location := some (render pb), value := some (JSONValue.num v) }]
       else []
   | none => [])

/-- Modelled from the spec: each missing required property yields one error
using the property name as the final path segment (spec section 4.2). -/
def requiredErrors (req : List String) (fields : List (String × JSONValue))
    (pb : PathBuffer) : List ErrorDetail :=
  (req.map (fun n =>
    match lookupField fields n with
    | some _ => []
    | none =>
        [{ message := "expected required property " ++ n ++ " to be present"
           location := some (render (pb ++ [Seg.field n])), value := none }])).flatten

/-- Modelled from the spec: the Validator (spec section 4.2).  Recursively
checks a decoded value against a schema, appending every violation and never
stopping at the first failure; objects are traversed in schema declaration
order and arrays in index order; a dynamic-kind mismatch yields one
wrong-type error and stops descending into that subtree.  `fuel` is only a
structural-recursion device charged at each object/array descent; the
wrapper `Validate` passes `schemaSize schema`, which exceeds the schema's
nesting depth, so the fuel never runs out.  Validation through named references is
not exercised by any claim and yields no errors here. -/
def validateF (fuel : Nat) (sch : Schema) (pb : PathBuffer) (v : JSONValue) :
    List ErrorDetail :=
  match sch, v with
  | Schema.string minL maxL, JSONValue.str s => checkString minL maxL pb s
  | Schema.number lo hi mo, JSONValue.num n => checkNumber lo hi mo pb n
  | Schema.boolean, JSONValue.boolean _ => []
  | Schema.null, JSONValue.null => []
  | Schema.ref _, _ => []
  | Schema.array items, JSONValue.arr xs =>
      (match fuel with
       | 0 => []
       | f + 1 =>
           ((xs.enum).map (fun p =>
             validateF f items (pb ++ [Seg.index p.1]) p.2)).flatten)
  | Schema.object props req, JSONValue.obj fields =>
      (match fuel with
       | 0 => []
       | f + 1 =>
           requiredErrors req fields pb ++
           (props.map (fun pr =>
             match lookupField fields pr.1 with
             | some x => validateF f pr.2 (pb ++ [Seg.field pr.1]) x
             | none => [])).flatten)
  | sch2, v2 =>
      [{ message := "expected " ++ schemaKindName sch2
         location := some (render pb), value := some v2 }]

mutual

/-- Total size of a schema tree, used as an always-sufficient fuel bound for
the Validator: every descent step of `validateF` moves to a strictly smaller
schema, so `schemaSize` exceeds the number of fuel charges on any branch. -/
def schemaSize : Schema → Nat
  | Schema.string _ _ => 1
  | Schema.number _ _ _ => 1
  | Schema.boolean => 1
  | Schema.null => 1
  | Schema.ref _ => 1
  | Schema.array items => 1 + schemaSize items
  | Schema.object props _ => 1 + schemaPropsSize props
termination_by structural s => s

/-- Size of an object schema's property list (see `schemaSize`). -/
def schemaPropsSize : List (String × Schema) → Nat
  | [] => 0
  | (_, s2) :: rest => 1 + schemaSize s2 + schemaPropsSize rest
termination_by structural l => l

end

/-- Modelled from the spec: `Validate(schema, pathTracker, value, result)`;
the append-only result collection is modelled by returning the list of
appended ErrorDetail entries.  The readOnly/writeOnly mode switch of the spec
is outside the constraint vocabulary exercised by the claims. -/
def Validate (sch : Schema) (pb : PathBuffer) (v : JSONValue) : List ErrorDetail :=
  validateF (schemaSize sch) sch pb v

/-- Error response wire shape from spec section 6: a JSON object with
`$schema`, `title`, numeric `status`, `detail` and the ordered `errors`
array. -/
structure ErrorModel where
  schemaURL : String
  title : String
  status : Int
  detail : String
  errors : List ErrorDetail

/-- Serializes one ErrorDetail: `message` always present, `location` and
`value` only when set (spec section 6: `{message, location?, value?}`). -/
def errorDetailJSON (e : ErrorDetail) : JSONValue :=
  JSONValue.obj
    ([("message", JSONValue.str e.message)]
     ++ (match e.location with
         | some l => [("location", JSONValue.str l)]
         | none => [])
     ++ (match e.value with
         | some v => [("value", v)]
         | none => []))

/-- Serializes the error model with its five contract fields in wire order. -/
def errorModelJSON (m : ErrorModel) : JSONValue :=
  JSONValue.obj
    [("$schema", JSONValue.str m.schemaURL),
     ("title", JSONValue.str m.title),
     ("status", JSONValue.num m.status),
     ("detail", JSONValue.str m.detail),
     ("errors", JSONValue.arr (m.errors.map errorDetailJSON))]

/-- Modelled from the spec: the aggregated 422 validation-failure response
(spec sections 4.5 and 6); title/detail/schema URL follow the wire bytes
pinned by `TestExhaustiveErrors`.  The result pairs the HTTP status with the
response body tree. -/
def validationErrorResponse (errs : List ErrorDetail) : Nat × JSONValue :=
  (422, errorModelJSON
    { schemaURL := "https:///schemas/ErrorModel.json"
      title := "Unprocessable Entity"
      status := 422
      detail := "validation failed"
      errors := errs })

/-- Modelled from the spec: the Request Orchestrator's final step (spec
section 4.5): if the merged error collection is empty the handler's response
is emitted, otherwise the aggregated 422 error response. -/
def orchestrate (errs : List ErrorDetail) (success : Nat × JSONValue) : Nat × JSONValue :=
  if errs.isEmpty then success else validationErrorResponse errs

/-- Schema of the `id` path parameter of `TestExhaustiveErrors`:
`path:"id" maxLength:"5"`. -/
def exhaustiveErrorsParamSchema : Schema := Schema.string none (some 5)

/-- Body schema of `ExhaustiveErrorsInputBody`: `name` with `maxLength:"10"`
then `count` with `minimum:"1"`, in declared field order. -/
def exhaustiveErrorsBodySchema : Schema :=
  Schema.object
    [("name", Schema.string none (some 10)), ("count", Schema.number (some 1) none none)]
    ["name", "count"]

/-- ExhaustiveErrorsInputBody from huma_test.go lines 217-220. -/
structure ExhaustiveErrorsInputBody where
  name : String
  count : Int

/-- ExhaustiveErrorsInput from huma_test.go lines 226-229. -/
structure ExhaustiveErrorsInput where
  id : String
  body : ExhaustiveErrorsInputBody

/-- Inner (body-level) resolver from huma_test.go lines 222-224: one plain
error with no location and no value. -/
def ExhaustiveErrorsInputBody.Resolve (_ : ExhaustiveErrorsInputBody) : List ErrorDetail :=
  [{ message := "body resolver error" }]

/-- Outer (input-level) resolver from huma_test.go lines 231-237: one
ErrorDetail anchored at `path.id` carrying the bound id value. -/
def ExhaustiveErrorsInput.Resolve (i : ExhaustiveErrorsInput) : List ErrorDetail :=
  [{ message := "input resolver error"
     location := some "path.id"
     value := some (JSONValue.str i.id) }]

/-- Decodes the generic body tree into `ExhaustiveErrorsInputBody` (the
mapstructure step of the pipeline); absent or mistyped fields decode to the
zero value, as in Go. -/
def decodeExhaustiveErrorsBody (v : JSONValue) : ExhaustiveErrorsInputBody :=
  { name :=
      (match v with
       | JSONValue.obj fields =>
           (match lookupField fields "name" with
            | some (JSONValue.str s) => s
            | _ => "")
       | _ => "")
    count :=
      (match v with
       | JSONValue.obj fields =>
           (match lookupField fields "count" with
            | some (JSONValue.num n) => n
            | _ => 0)
       | _ => 0) }

/-- Modelled from the spec: the merged error collection of the
`TestExhaustiveErrors` operation in pipeline order (spec sections 4.3-4.5):
path-parameter constraint validation, then body validation in declared field
order, then the resolver pass outer-to-inner. -/
def exhaustiveErrorsPipeline (rawId : String) (bodyVal : JSONValue) : List ErrorDetail :=
  let input : ExhaustiveErrorsInput :=
    { id := rawId, body := decodeExhaustiveErrorsBody bodyVal }
  Validate exhaustiveErrorsParamSchema [Seg.field "path", Seg.field "id"] (JSONValue.str rawId)
  ++ Validate exhaustiveErrorsBodySchema [Seg.field "body"] bodyVal
  ++ input.Resolve
  ++ input.body.Resolve

/-- Full orchestration of one `PUT /errors/{id}` request: run the pipeline,
then emit either the handler's (empty) success response or the aggregated
422 error response. -/
def exhaustiveErrorsRequest (rawId : String) (bodyVal : JSONValue) : Nat × JSONValue :=
  orchestrate (exhaustiveErrorsPipeline rawId bodyVal) (200, JSONValue.null)

/-- Counts one optional declared constraint as violated (1) or not (0). -/
def countOptViol {α : Type} (o : Option α) (bad : α → Prop) [DecidablePred bad] : Nat :=
  match o with
  | some x => if bad x then 1 else 0
  | none => 0

/-- Number of independently violated declared constraints of a string schema,
written from the spec's constraint vocabulary (length bounds). -/
def stringConstraintViolations (minL maxL : Option Nat) (s : String) : Nat :=
  countOptViol minL (fun n => s.length < n) + countOptViol maxL (fun n => s.length > n)

/-- Number of independently violated declared constraints of a number schema
(numeric bounds and multiple-of). -/
def numberConstraintViolations (lo hi mo : Option Int) (v : Int) : Nat :=
  countOptViol lo (fun n => v < n) + countOptViol hi (fun n => v > n)
  + countOptViol mo (fun m => v % m ≠ 0)

/-- Number of required properties missing from a decoded object (one
violation per missing name, spec section 4.2). -/
def requiredViolations (req : List String) (fields : List (String × JSONValue)) : Nat :=
  (req.map (fun n =>
    match lookupField fields n with
    | some _ => 0
    | none => 1)).sum

/-- Written from the spec's words (section 4.2): the number of independently
violated constraints of a value against a schema, compositionally — scalar
constraints counted one per failing constraint, one violation per missing
required property, one per dynamic-kind mismatch (under which no descent
happens), summed over schema-declared properties and array elements.  The
count carries no locations, messages or ordering; `fuel` is the same
structural-recursion device as in `validateF`, charged identically. -/
def countViolationsF (fuel : Nat) (sch : Schema) (v : JSONValue) : Nat :=
  match sch, v with
  | Schema.string minL maxL, JSONValue.str s => stringConstraintViolations minL maxL s
  | Schema.number lo hi mo, JSONValue.num n => numberConstraintViolations lo hi mo n
  | Schema.boolean, JSONValue.boolean _ => 0
  | Schema.null, JSONValue.null => 0
  | Schema.ref _, _ => 0
  | Schema.array items, JSONValue.arr xs =>
      (match fuel with
       | 0 => 0
       | f + 1 => (xs.map (fun x => countViolationsF f items x)).sum)
  | Schema.object props req, JSONValue.obj fields =>
      (match fuel with
       | 0 => 0
       | f + 1 =>
           requiredViolations req fields +
           (props.map (fun pr =>
             match lookupField fields pr.1 with
             | some x => countViolationsF f pr.2 x
             | none => 0)).sum)
  | _, _ => 1

/-- The total count of independently violated constraints of a value against
a schema (see `countViolationsF`; the fuel bound is always sufficient). -/
def constraintViolations (sch : Schema) (v : JSONValue) : Nat :=
  countViolationsF (schemaSize sch) sch v

/-- NestedResolversStruct from huma_test.go lines 287-289. -/
structure NestedResolversStruct where
  field2 : String

/-- Path-aware resolver from huma_test.go lines 291-297: given the ambient
path prefix it reports one error located at `prefix.With("field2")` carrying
the field's value.  The Go receiver also takes a Context, which carries no
data used here. -/
def NestedResolversStruct.Resolve (b : NestedResolversStruct) (pre : PathBuffer) :
    List ErrorDetail :=
  [{ message := "resolver error"
     location := some (PathBuffer.With pre "field2")
     value := some (JSONValue.str b.field2) }]

/-- NestedResolversBody from huma_test.go lines 301-303: `field1` is a map
from strings to sequences of `NestedResolversStruct`; the map is modelled as
an ordered association list. -/
structure NestedResolversBody where
  field1 : List (String × List NestedResolversStruct)

/-- Modelled from the spec: the resolver pipeline's walk over the
`NestedResolverRequest` input (spec section 4.4): descend from `body` into
`field1`, push each map key, then each sequence index, and invoke the
path-aware resolver with the Path Tracker's prefix at that position. -/
def nestedResolverPipeline (b : NestedResolversBody) : List ErrorDetail :=
  (b.field1.map (fun kv =>
    ((kv.2.enum).map (fun iv =>
      iv.2.Resolve
        [Seg.field "body", Seg.field "field1", Seg.field kv.1, Seg.index iv.1])).flatten)).flatten

/-- Wall-clock timestamp components; the engine parses all exercised inputs
as UTC, so no zone offset is carried. -/
structure TimeVal where
  year : Nat
  month : Nat
  day : Nat
  hour : Nat
  minute : Nat
  second : Nat
deriving DecidableEq

/-- Reads exactly `n` ASCII digits from the input, returning their value and
the remaining characters. -/
def parseFixedDigits : Nat → Nat → List Char → Option (Nat × List Char)
  | 0, acc, s => some (acc, s)
  | n + 1, acc, c :: rest =>
      if 48 ≤ c.toNat ∧ c.toNat ≤ 57 then
        parseFixedDigits n (acc * 10 + (c.toNat - 48)) rest
      else none
  | _ + 1, _, [] => none

/-- Modelled from the spec: a Go-style reference-time layout interpreter for
the formats the engine uses (`2006`=year, `01`=month, `02`=day, `15`=hour,
`04`=minute, `05`=second, `Z07:00`=UTC zone designator, any other character
a literal).  Consumes the whole input; components missing from the layout
stay at their initial value. -/
def goParseTime : List Char → List Char → TimeVal → Option TimeVal
  | [], [], acc => some acc
  | [], _ :: _, _ => none
  | '2' :: '0' :: '0' :: '6' :: f, s, acc =>
      match parseFixedDigits 4 0 s with
      | some p => goParseTime f p.2 { acc with year := p.1 }
      | none => none
  | '1' :: '5' :: f, s, acc =>
      match parseFixedDigits 2 0 s with
      | some p => goParseTime f p.2 { acc with hour := p.1 }
      | none => none
  | '0' :: '1' :: f, s, acc =>
      match parseFixedDigits 2 0 s with
      | some p => goParseTime f p.2 { acc with month := p.1 }
      | none => none
  | '0' :: '2' :: f, s, acc =>
      match parseFixedDigits 2 0 s with
      | some p => goParseTime f p.2 { acc with day := p.1 }
      | none => none
  | '0' :: '4' :: f, s, acc =>
      match parseFixedDigits 2 0 s with
      | some p => goParseTime f p.2 { acc with minute := p.1 }
      | none => none
  | '0' :: '5' :: f, s, acc =>
      match parseFixedDigits 2 0 s with
      | some p => goParseTime f p.2 { acc with second := p.1 }
      | none => none
  | 'Z' :: '0' :: '7' :: ':' :: '0' :: '0' :: f, s, acc =>
      (match s with
       | 'Z' :: s2 => goParseTime f s2 acc
       | _ => none)
  | c :: f, d :: s, acc => if c = d then goParseTime f s acc else none
  | _ :: _, [], _ => none

/-- The default wire timestamp layout (RFC 3339), used when a timestamp
parameter declares no explicit `timeFormat` annotation. -/
def defaultTimeLayout : String := "2006-01-02T15:04:05Z07:00"

/-- Parses a raw timestamp parameter: an explicitly declared custom layout
takes precedence over the default wire layout (spec section 4.3). -/
def parseTimeParam (tfmt : Option String) (raw : String) : Option TimeVal :=
  let layout := match tfmt with
    | some f => f
    | none => defaultTimeLayout
  goParseTime layout.data raw.data { year := 0, month := 0, day := 0, hour := 0, minute := 0, second := 0 }

/-- Parses a run of ASCII digits to a Nat; fails on empty or non-digit
input. -/
def parseNatAll (cs : List Char) : Option Nat :=
  match cs with
  | [] => none
  | _ =>
      let rec go : List Char → Nat → Option Nat
        | [], acc => some acc
        | c :: rest, acc =>
            if 48 ≤ c.toNat ∧ c.toNat ≤ 57 then go rest (acc * 10 + (c.toNat - 48))
            else none
      go cs 0

/-- Parses an optionally negated decimal integer. -/
def parseIntStr (s : String) : Option Int :=
  match s.data with
  | '-' :: rest => (parseNatAll rest).map (fun n => -(n : Int))
  | cs => (parseNatAll cs).map (fun n => (n : Int))

/-- Parses an unsigned decimal number with an optional fractional part to an
exact rational. -/
def parseFracChars (cs : List Char) : Option Rat :=
  match cs.span (fun c => c ≠ '.') with
  | (intCs, []) => (parseNatAll intCs).map (fun n => (n : Rat))
  | (intCs, _ :: fracCs) =>
      match parseNatAll intCs, parseNatAll fracCs with
      | some i, some f => some ((i : Rat) + (f : Rat) / ((10 : Rat) ^ fracCs.length))
      | _, _ => none

/-- Parses an optionally negated decimal float to an exact rational. -/
def parseFloatStr (s : String) : Option Rat :=
  match s.data with
  | '-' :: rest => (parseFracChars rest).map (fun q => -q)
  | cs => parseFracChars cs

/-- Declared wire type of a path/query/header parameter field, as the engine
derives it from the Go field type plus the optional `timeFormat`
annotation. -/
inductive ParamType where
  | pstring
  | pint
  | pfloat
  | ptime (tfmt : Option String)

/-- A converted parameter value. -/
inductive ParsedValue where
  | pvStr (s : String)
  | pvInt (i : Int)
  | pvFloat (q : Rat)
  | pvTime (t : TimeVal)
deriving DecidableEq

/-- Converts one raw parameter string to its declared type (spec section
4.3: numeric parse, boolean parse, timestamps via default or custom
layout). -/
def parseParamValue : ParamType → String → Option ParsedValue
  | ParamType.pstring, r => some (ParsedValue.pvStr r)
  | ParamType.pint, r => (parseIntStr r).map ParsedValue.pvInt
  | ParamType.pfloat, r => (parseFloatStr r).map ParsedValue.pvFloat
  | ParamType.ptime tfmt, r => (parseTimeParam tfmt r).map ParsedValue.pvTime

/-- Declared metadata of one parameter field (spec section 6 vocabulary):
wire name, location tag, optional `default` annotation and wire type. -/
structure ParamSpec where
  name : String
  loc : String
  defaultVal : Option String
  ty : ParamType

/-- Modelled from the spec: the Parameter Binder for one field (spec section
4.3): read the raw string by wire name; if absent and a `default` annotation
exists substitute the default's parsed value; a conversion failure appends
one ErrorDetail at `loc.name` carrying the offending raw value and never
aborts binding of other fields. -/
def bindParam (raw : Option String) (sp : ParamSpec) : Option ParsedValue × List ErrorDetail :=
  match raw with
  | some r =>
      (match parseParamValue sp.ty r with
       | some v => (some v, [])
       | none =>
           (none,
            [{ message := "invalid value"
               location := some (sp.loc ++ "." ++ sp.name)
               value := some (JSONValue.str r) }]))
  | none =>
      (match sp.defaultVal with
       | some d => (parseParamValue sp.ty d, [])
       | none => (none, []))

/-- The `def` query parameter of TestFeatures/params:
`query:"def" default:"135"` on a float32 field. -/
def queryDefSpec : ParamSpec :=
  { name := "def", loc := "query", defaultVal := some "135", ty := ParamType.pfloat }

/-- The `date` query parameter of TestFeatures/params:
`query:"date" timeFormat:"2006-01-02"` on a time field. -/
def queryDateSpec : ParamSpec :=
  { name := "date", loc := "query", defaultVal := none
    ty := ParamType.ptime (some "2006-01-02") }

/-- The `before` query parameter of TestFeatures/params: `query:"before"` on
a time field with no explicit format annotation. -/
def queryBeforeSpec : ParamSpec :=
  { name := "before", loc := "query", defaultVal := none, ty := ParamType.ptime none }

/-- Modelled from the spec: the shape of one record field as seen by the
Registry's introspection (spec section 4.1): scalars, collections, and
references to named record types (the way a Go struct field refers to
another struct type, including its own). -/
inductive FieldType where
  | fString
  | fInt
  | fBool
  | fList (elem : FieldType)
  | fNamed (n : String)
deriving DecidableEq

/-- The registration-time environment of named record types: each entry maps
a type name to its ordered list of (field name, field type). -/
abbrev TypeEnv := List (String × List (String × FieldType))

/-- Looks up a named record type's field list in the environment. -/
def lookupEnv : TypeEnv → String → Option (List (String × FieldType))
  | [], _ => none
  | (k, fields) :: rest, n => if k = n then some fields else lookupEnv rest n

/-- Modelled from the spec: Schema construction by introspection (spec
section 4.1).  `seen` is the set of type names already registered on the
current descent: a type stores its name before its children are introspected,
so a child reference to any name in `seen` becomes a named reference
(`Schema.ref`) instead of inline nesting — this is what prevents unbounded
recursion on self-referential types.  `fuel` is only a structural-recursion
device; any fuel at least (number of env entries + 1) * (max field nesting)
is sufficient, and the registry wrapper passes such a bound. -/
def buildFieldSchema (env : TypeEnv) : Nat → List String → FieldType → Schema
  | 0, _, _ => Schema.ref ""
  | fuel + 1, seen, t =>
      match t with
      | FieldType.fString => Schema.string none none
      | FieldType.fInt => Schema.number none none none
      | FieldType.fBool => Schema.boolean
      | FieldType.fList e => Schema.array (buildFieldSchema env fuel seen e)
      | FieldType.fNamed n =>
          if n ∈ seen then Schema.ref n
          else
            match lookupEnv env n with
            | none => Schema.ref n
            | some fields =>
                Schema.object
                  (fields.map (fun fld => (fld.1, buildFieldSchema env fuel (n :: seen) fld.2)))
                  (fields.map (fun fld => fld.1))

/-- Nesting depth of a field type, used to compute a sufficient fuel bound. -/
def fieldTypeDepth : FieldType → Nat
  | FieldType.fList e => fieldTypeDepth e + 1
  | _ => 1

/-- An always-sufficient fuel bound for `buildFieldSchema` over `env`: each
named-type descent and each collection layer consumes one unit, named-type
descents are bounded by the number of env entries (a revisited name is in
`seen`), and collection layers between them by the maximum field depth. -/
def registryFuel (env : TypeEnv) : Nat :=
  (env.length + 1) *
    ((env.map (fun e => (e.2.map (fun fld => fieldTypeDepth fld.2)).foldr Nat.max 0)).foldr Nat.max 0 + 1)
  + 1

/-- Registry state from spec section 3: a memoized mapping from type identity
(here: the type's name in the environment) to its built Schema.  `base` is
the schema-name URL base given at construction
(`NewMapRegistry("#/components/schemas/", ...)`). -/
structure Registry where
  base : String
  entries : List (String × Schema)

/-- Looks up a cached schema by type identity. -/
def lookupSchemaEntries : List (String × Schema) → String → Option Schema
  | [], _ => none
  | (k, s) :: rest, n => if k = n then some s else lookupSchemaEntries rest n

/-- Modelled from the spec: `Schema(typeDescriptor, forceNewSchema, hint)`
(spec section 4.1): return the cached Schema if known; otherwise introspect,
build, store under the computed name and return it.  With `forceNewSchema`
a fresh uncached schema is built.  Returns the schema together with the
(possibly extended) registry state. -/
def Registry.schema (env : TypeEnv) (r : Registry) (tname : String) (forceNew : Bool) :
    Schema × Registry :=
  if forceNew then (buildFieldSchema env (registryFuel env) [] (FieldType.fNamed tname), r)
  else
    match lookupSchemaEntries r.entries tname with
    | some s => (s, r)
    | none =>
        let s := buildFieldSchema env (registryFuel env) [] (FieldType.fNamed tname)
        (s, { r with entries := r.entries ++ [(tname, s)] })

/-- A self-referential record type: `Node { value int; next *Node }`. -/
def nodeEnv : TypeEnv :=
  [("Node", [("value", FieldType.fInt), ("next", FieldType.fNamed "Node")])]

/-- Go's strings.ReplaceAll specialized to a single-character pattern, as the
two adapters use it: every occurrence of `old` is replaced by the string
`rep` (possibly empty). -/
def replaceAllChar : List Char → Char → List Char → List Char
  | [], _, _ => []
  | c :: rest, old, rep =>
      if c = old then rep ++ replaceAllChar rest old rep
      else c :: replaceAllChar rest old rep

/-- The opening-brace character of a path template. -/
def lbrace : Char := Char.ofNat 123

/-- The closing-brace character of a path template. -/
def rbrace : Char := Char.ofNat 125

/-- The colon character used by gin/fiber route parameters. -/
def colonChar : Char := Char.ofNat 58

/-- Route path registered by ginAdapter.Handle (humagin.go lines 98-107):
`strings.ReplaceAll(path, "{", ":")` then `strings.ReplaceAll(path, "}", "")`. -/
def ginRoutePath (path : List Char) : List Char :=
  replaceAllChar (replaceAllChar path lbrace [colonChar]) rbrace []

/-- Route path registered by fiberAdapter.Handle (humafiber.go lines
101-111): the same two rewrites as the gin adapter. -/
def fiberRoutePath (path : List Char) : List Char :=
  replaceAllChar (replaceAllChar path lbrace [colonChar]) rbrace []

/-- Lowercases one ASCII byte (Go textproto's `validHeaderFieldByte` world:
only A-Z map down). -/
def lowerB (b : Nat) : Nat := if 65 ≤ b ∧ b ≤ 90 then b + 32 else b

/-- Uppercases one ASCII byte (only a-z map up). -/
def upperB (b : Nat) : Nat := if 97 ≤ b ∧ b ≤ 122 then b - 32 else b

/-- Valid HTTP header token bytes per Go net/textproto's token table:
digits, letters, and the legal punctuation. -/
def isTokenByte (b : Nat) : Bool :=
  (48 ≤ b && b ≤ 57) || (65 ≤ b && b ≤ 90) || (97 ≤ b && b ≤ 122) ||
  (b == 33) || (b == 35) || (b == 36) || (b == 37) || (b == 38) || (b == 39) ||
  (b == 42) || (b == 43) || (b == 45) || (b == 46) || (b == 94) || (b == 95) ||
  (b == 96) || (b == 124) || (b == 126)

/-- Canonicalization loop of Go net/textproto: uppercase a letter at the
start or after a hyphen (byte 45), lowercase every other letter. -/
def canonAux : Bool → List Nat → List Nat
  | _, [] => []
  | up, b :: rest => (if up then upperB b else lowerB b) :: canonAux (b == 45) rest

/-- Go textproto.CanonicalMIMEHeaderKey on a byte list: canonicalize a valid
token key; return an invalid key unmodified. -/
def canonicalMIMEHeaderKey (bs : List Nat) : List Nat :=
  if bs.all (fun b => isTokenByte b) then canonAux true bs else bs

/-- Byte list of a string (header names in the tests are ASCII). -/
def strBytes (s : String) : List Nat := s.data.map Char.toNat

/-- Go http.Header.Set: stores the value under the canonical form of the
key, replacing any previous entry. -/
def headerSet (h : List (List Nat × String)) (k : List Nat) (v : String) :
    List (List Nat × String) :=
  (canonicalMIMEHeaderKey k, v) :: h.filter (fun p => p.1 ≠ canonicalMIMEHeaderKey k)

/-- Go http.Header.Get as used by testContext.Header (huma_test.go lines
62-64): looks up the canonical form of the requested name. -/
def headerGet (h : List (List Nat × String)) (k : List Nat) : Option String :=
  match h.find? (fun p => p.1 == canonicalMIMEHeaderKey k) with
  | some p => some p.2
  | none => none

/-- Cache lookup in an association list extended on the right finds the new
entry when the key was previously absent. -/
theorem lookupSchemaEntries_append_right (l : List (String × Schema)) (t : String)
    (s : Schema) (h : lookupSchemaEntries l t = none) :
    lookupSchemaEntries (l ++ [(t, s)]) t = some s := by
  induction l with
  | nil => simp [lookupSchemaEntries]
  | cons p rest ih =>
      obtain ⟨k, s0⟩ := p
      by_cases hk : k = t
      · simp [lookupSchemaEntries, hk] at h
      · simp only [List.cons_append, lookupSchemaEntries, if_neg hk] at h ⊢
        exact ih h

/-- Replacing a character by a one-character string rewrites each character
pointwise. -/
theorem replaceAllChar_single (old c2 : Char) :
    ∀ s : List Char, replaceAllChar s old [c2] = s.map (fun c => if c = old then c2 else c) := by
  intro s
  induction s with
  | nil => rfl
  | cons c rest ih =>
      by_cases hc : c = old <;> simp [replaceAllChar, hc, ih]

/-- Replacing a character by the empty string deletes every occurrence. -/
theorem replaceAllChar_empty (old : Char) :
    ∀ s : List Char, replaceAllChar s old [] = s.filter (fun c => c ≠ old) := by
  intro s
  induction s with
  | nil => rfl
  | cons c rest ih =>
      by_cases hc : c = old <;> simp [replaceAllChar, hc, ih]

/-- Bytes with equal lowercase images have equal uppercase images. -/
theorem upperB_congr (x y : Nat) (h : lowerB x = lowerB y) : upperB x = upperB y := by
  unfold lowerB at h
  unfold upperB
  split_ifs at h ⊢ <;> omega

/-- Bytes with equal lowercase images agree on being the hyphen byte. -/
theorem dashByte_congr (x y : Nat) (h : lowerB x = lowerB y) : (x == 45) = (y == 45) := by
  have hiff : x = 45 ↔ y = 45 := by
    unfold lowerB at h
    split_ifs at h <;> omega
  by_cases hx : x = 45
  · simp [hx, hiff.mp hx]
  · have hy : y ≠ 45 := fun hy => hx (hiff.mpr hy)
    simp [hx, hy]

/-- The canonicalization loop depends only on the case-insensitive image of
the key. -/
theorem canonAux_congr :
    ∀ (xs ys : List Nat) (up : Bool), xs.map lowerB = ys.map lowerB →
      canonAux up xs = canonAux up ys := by
  intro xs
  induction xs with
  | nil =>
      intro ys up h
      cases ys with
      | nil => rfl
      | cons b u => simp at h
  | cons a t ih =>
      intro ys up h
      cases ys with
      | nil => simp at h
      | cons b u =>
          simp only [List.map_cons, List.cons.injEq] at h
          obtain ⟨h1, h2⟩ := h
          simp only [canonAux]
          have hh : (if up then upperB a else lowerB a) = (if up then upperB b else lowerB b) := by
            cases up
            · simpa using h1
            · simpa using upperB_congr a b h1
          rw [hh, dashByte_congr a b h1, ih u (b == 45) h2]

/-- C1: for the `TestExhaustiveErrors` request — path parameter "123456"
violating `maxLength:"5"`, body field `name` violating `maxLength:"10"`,
body field `count` violating `minimum:"1"`, an outer input resolver error and
an inner body resolver error — the orchestrator emits a 422 response whose
`errors` array contains exactly 5 entries in the order: path constraint,
body constraints in declared field order, outer resolver, inner resolver. -/
theorem exhaustive_errors_five_in_order :
    exhaustiveErrorsRequest "123456"
      (JSONValue.obj [("name", JSONValue.str "12345678901"), ("count", JSONValue.num 0)])
    = (422, JSONValue.obj
        [("$schema", JSONValue.str "https:///schemas/ErrorModel.json"),
         ("title", JSONValue.str "Unprocessable Entity"),
         ("status", JSONValue.num 422),
         ("detail", JSONValue.str "validation failed"),
         ("errors", JSONValue.arr
           [JSONValue.obj [("message", JSONValue.str "expected length <= 5"),
                           ("location", JSONValue.str "path.id"),
                           ("value", JSONValue.str "123456")],
            JSONValue.obj [("message", JSONValue.str "expected length <= 10"),
                           ("location", JSONValue.str "body.name"),
                           ("value", JSONValue.str "12345678901")],
            JSONValue.obj [("message", JSONValue.str "expected number >= 1"),
                           ("location", JSONValue.str "body.count"),
                           ("value", JSONValue.num 0)],
            JSONValue.obj [("message", JSONValue.str "input resolver error"),
                           ("location", JSONValue.str "path.id"),
                           ("value", JSONValue.str "123456")],
            JSONValue.obj [("message", JSONValue.str "body resolver error")]])])
    ∧ (exhaustiveErrorsPipeline "123456"
        (JSONValue.obj [("name", JSONValue.str "12345678901"), ("count", JSONValue.num 0)])).length
      = 5 := by
  exact ⟨rfl, rfl⟩

/-- The length of a flattened map of lists is the sum of the pointwise
lengths. -/
theorem flatten_length_sum {α β : Type} (g : α → List β) :
    ∀ l : List α, ((l.map g).flatten).length = (l.map (fun a => (g a).length)).sum := by
  intro l
  induction l with
  | nil => rfl
  | cons a t ih => simp [ih]

/-- Mapping a function of the element over an enumerated list equals mapping
it over the list itself. -/
theorem enum_map_snd_eq {α β : Type} (g : α → β) (l : List α) :
    l.enum.map (fun p => g p.2) = l.map g := by
  have h : (fun p : Nat × α => g p.2) = g ∘ Prod.snd := rfl
  rw [h, ← List.map_map, List.enum_map_snd]

/-- The string checks append exactly one entry per violated declared
constraint. -/
theorem checkString_length (minL maxL : Option Nat) (pb : PathBuffer) (s : String) :
    (checkString minL maxL pb s).length = stringConstraintViolations minL maxL s := by
  cases minL <;> cases maxL <;>
    simp only [checkString, stringConstraintViolations, countOptViol, List.length_append] <;>
    first
    | (split_ifs <;> simp)
    | simp

/-- The number checks append exactly one entry per violated declared
constraint. -/
theorem checkNumber_length (lo hi mo : Option Int) (pb : PathBuffer) (v : Int) :
    (checkNumber lo hi mo pb v).length = numberConstraintViolations lo hi mo v := by
  cases lo <;> cases hi <;> cases mo <;>
    simp only [checkNumber, numberConstraintViolations, countOptViol, List.length_append] <;>
    first
    | (split_ifs <;> simp)
    | simp

/-- The required-property pass appends exactly one entry per missing
required property. -/
theorem requiredErrors_length (req : List String) (fields : List (String × JSONValue))
    (pb : PathBuffer) :
    (requiredErrors req fields pb).length = requiredViolations req fields := by
  unfold requiredErrors requiredViolations
  rw [flatten_length_sum]
  apply congrArg List.sum
  apply List.map_congr_left
  intro n _
  cases h : lookupField fields n <;> simp [h]

/-- For every fuel budget, schema, path and value, the Validator appends
exactly as many ErrorDetail entries as there are independently violated
constraints, counted compositionally; the count never depends on the path
prefix. -/
theorem validateF_length_count (fuel : Nat) :
    ∀ (sch : Schema) (pb : PathBuffer) (v : JSONValue),
      (validateF fuel sch pb v).length = countViolationsF fuel sch v := by
  induction fuel with
  | zero =>
      intro sch pb v
      cases sch <;> cases v <;>
        first
        | rfl
        | (exact checkString_length _ _ _ _)
        | (exact checkNumber_length _ _ _ _ _)
  | succ f ih =>
      intro sch pb v
      cases sch <;> cases v <;>
        try first
          | rfl
          | (exact checkString_length _ _ _ _)
          | (exact checkNumber_length _ _ _ _ _)
      · -- array element traversal
        simp only [validateF, countViolationsF]
        rw [flatten_length_sum]
        simp only [ih]
        rw [enum_map_snd_eq]
      · -- object property traversal
        simp only [validateF, countViolationsF]
        rw [List.length_append, requiredErrors_length, flatten_length_sum]
        congr 1
        apply congrArg List.sum
        apply List.map_congr_left
        intro pr _
        cases h : lookupField _ pr.1 <;> simp [h, ih]

/-- C2: for every value and schema, Validate appends exactly one ErrorDetail
per independently violated constraint — compositionally over object
properties and array elements, never stopping at the first failure.
Instantiated on the cited test's K = 3 case (one path-parameter constraint
plus two body-field constraints reached through object descent) and on a
single scalar accruing K = 2 entries under a satisfiable schema (minimum 10,
multipleOf 3 — met by 12 — both violated by 7). -/
theorem validate_appends_one_entry_per_violation :
    (∀ (sch : Schema) (pb : PathBuffer) (v : JSONValue),
       (Validate sch pb v).length = constraintViolations sch v)
    ∧ ((Validate exhaustiveErrorsParamSchema [Seg.field "path", Seg.field "id"]
          (JSONValue.str "123456")).length
        + (Validate exhaustiveErrorsBodySchema [Seg.field "body"]
            (JSONValue.obj [("name", JSONValue.str "12345678901"),
                            ("count", JSONValue.num 0)])).length
        = 3)
    ∧ (constraintViolations exhaustiveErrorsParamSchema (JSONValue.str "123456")
        + constraintViolations exhaustiveErrorsBodySchema
            (JSONValue.obj [("name", JSONValue.str "12345678901"),
                            ("count", JSONValue.num 0)])
        = 3)
    ∧ (Validate (Schema.number (some 10) none (some 3)) [] (JSONValue.num 7)).length = 2
    ∧ constraintViolations (Schema.number (some 10) none (some 3)) (JSONValue.num 7) = 2 := by
  refine ⟨?_, rfl, rfl, rfl, rfl⟩
  intro sch pb v
  exact validateF_length_count (schemaSize sch) sch pb v

/-- C3: every validation/resolution failure response is emitted with HTTP
status 422 and is a JSON object with exactly the fields `$schema` (schema
URL), `title`, numeric `status`, `detail`, and `errors` — the ordered array
of serialized ErrorDetail entries, one per collected error. -/
theorem error_response_wire_shape :
    ∀ (errs : List ErrorDetail) (success : Nat × JSONValue),
      errs ≠ [] →
      orchestrate errs success
        = (422, JSONValue.obj
            [("$schema", JSONValue.str "https:///schemas/ErrorModel.json"),
             ("title", JSONValue.str "Unprocessable Entity"),
             ("status", JSONValue.num 422),
             ("detail", JSONValue.str "validation failed"),
             ("errors", JSONValue.arr (errs.map errorDetailJSON))])
      ∧ (errs.map errorDetailJSON).length = errs.length := by
  intro errs success h
  constructor
  · have hne : errs.isEmpty = false := by
      cases errs with
      | nil => exact absurd rfl h
      | cons e rest => rfl
    simp [orchestrate, hne, validationErrorResponse, errorModelJSON]
  · simp

/-- C3 witness: a concrete one-error collection yields the 422 wire shape. -/
theorem error_response_wire_shape_witness :
    (([{ message := "m" }] : List ErrorDetail) ≠ [])
    ∧ (orchestrate [{ message := "m" }] (200, JSONValue.null)).1 = 422 := by
  refine ⟨List.cons_ne_nil _ _, ?_⟩
  have h := (error_response_wire_shape [{ message := "m" }] (200, JSONValue.null)
    (List.cons_ne_nil _ _)).1
  rw [h]

/-- C4: for the path-aware resolver nested inside a map of sequences of
records (`body.field1` : map key → list of `NestedResolversStruct`), the
prefix passed at map key "foo", index 0 lets the resolver produce the
location `body.field1.foo[0].field2`, combining the map key, the bracketed
sequence index, and the field name. -/
theorem nested_resolver_path_location :
    nestedResolverPipeline { field1 := [("foo", [{ field2 := "bar" }])] }
      = [{ message := "resolver error"
           location := some "body.field1.foo[0].field2"
           value := some (JSONValue.str "bar") }]
    ∧ PathBuffer.With
        [Seg.field "body", Seg.field "field1", Seg.field "foo", Seg.index 0] "field2"
      = "body.field1.foo[0].field2" := by
  exact ⟨rfl, rfl⟩

/-- C5: a query parameter carrying a `default` annotation that is omitted by
the client binds to the parsed default value and never contributes a binding
error entry. -/
theorem default_query_param_binding :
    ∀ (sp : ParamSpec) (d : String), sp.defaultVal = some d →
      bindParam none sp = (parseParamValue sp.ty d, []) := by
  intro sp d h
  simp [bindParam, h]

/-- C5 witness: the `def` parameter (`default:"135"`, float32) of
TestFeatures/params binds to 135 with no error when omitted. -/
theorem default_query_param_binding_witness :
    queryDefSpec.defaultVal = some "135"
    ∧ bindParam none queryDefSpec = (some (ParsedValue.pvFloat 135), []) := by
  refine ⟨rfl, ?_⟩
  rw [default_query_param_binding queryDefSpec "135" rfl]
  rfl

/-- C6: the `date` query parameter declared with custom time format
`2006-01-02` parses "2023-01-01" to midnight UTC on that date, while the
`before` parameter without a format annotation parses the full timestamp
"2023-01-01T12:00:00Z" to the corresponding instant. -/
theorem time_format_query_params :
    bindParam (some "2023-01-01") queryDateSpec
      = (some (ParsedValue.pvTime
          { year := 2023, month := 1, day := 1, hour := 0, minute := 0, second := 0 }), [])
    ∧ bindParam (some "2023-01-01T12:00:00Z") queryBeforeSpec
      = (some (ParsedValue.pvTime
          { year := 2023, month := 1, day := 1, hour := 12, minute := 0, second := 0 }), []) := by
  exact ⟨rfl, rfl⟩

/-- C7: for every type identity, a second Registry Schema call (with
forceNewSchema false) returns a Schema equal to the first call's result,
leaves the registry state untouched (no rebuild), and serves it from the
cache entry stored by the first call. -/
theorem registry_schema_memoized :
    ∀ (env : TypeEnv) (r : Registry) (t : String),
      (Registry.schema env (Registry.schema env r t false).2 t false).1
        = (Registry.schema env r t false).1
      ∧ (Registry.schema env (Registry.schema env r t false).2 t false).2
        = (Registry.schema env r t false).2
      ∧ lookupSchemaEntries (Registry.schema env r t false).2.entries t
        = some (Registry.schema env r t false).1 := by
  intro env r t
  cases h : lookupSchemaEntries r.entries t with
  | some s => simp [Registry.schema, h]
  | none =>
      have h2 := lookupSchemaEntries_append_right r.entries t
        (buildFieldSchema env (registryFuel env) [] (FieldType.fNamed t)) h
      simp [Registry.schema, h, h2]

/-- C8: Registry construction of a self-referential record type terminates
(`buildFieldSchema` is a total function, evaluated at the witness below) and
represents the cyclic edge as a named reference: the type's name is on the
`seen` list before its children are introspected, so a field referring back
to the type maps to `Schema.ref` rather than inline nesting, for every fuel
budget. -/
theorem registry_self_reference_is_ref :
    ∀ (env : TypeEnv) (n fname : String) (fields : List (String × FieldType)) (k : Nat),
      lookupEnv env n = some fields →
      (fname, FieldType.fNamed n) ∈ fields →
      (fname, Schema.ref n) ∈ schemaProperties (buildFieldSchema env (k + 2) [] (FieldType.fNamed n)) := by
  intro env n fname fields k h1 h2
  have hstep : buildFieldSchema env (k + 2) [] (FieldType.fNamed n)
      = Schema.object
          (fields.map (fun fld => (fld.1, buildFieldSchema env (k + 1) [n] fld.2)))
          (fields.map (fun fld => fld.1)) := by
    simp [buildFieldSchema, h1]
  rw [hstep]
  simp only [schemaProperties]
  apply List.mem_map.mpr
  refine ⟨(fname, FieldType.fNamed n), h2, ?_⟩
  have href : buildFieldSchema env (k + 1) [n] (FieldType.fNamed n) = Schema.ref n := by
    simp [buildFieldSchema]
  rw [href]

/-- C8 witness: the self-referential `Node` type builds a schema whose
`next` property is the named reference `Schema.ref "Node"`. -/
theorem registry_self_reference_is_ref_witness :
    lookupEnv nodeEnv "Node" = some [("value", FieldType.fInt), ("next", FieldType.fNamed "Node")]
    ∧ ("next", Schema.ref "Node")
        ∈ schemaProperties (buildFieldSchema nodeEnv 2 [] (FieldType.fNamed "Node")) := by
  refine ⟨rfl, ?_⟩
  exact registry_self_reference_is_ref nodeEnv "Node" "next"
    [("value", FieldType.fInt), ("next", FieldType.fNamed "Node")] 0 rfl (by decide)

/-- C9: both the gin and fiber adapters register the route obtained by
replacing every occurrence of the opening brace with a colon and deleting
every occurrence of the closing brace anywhere in the path template — all
braces, not only those delimiting parameter names — so `/errors/{id}`
becomes `/errors/:id`. -/
theorem adapter_route_brace_rewrite :
    (∀ path : List Char,
       ginRoutePath path
         = (path.map (fun c => if c = lbrace then colonChar else c)).filter (fun c => c ≠ rbrace)
       ∧ fiberRoutePath path = ginRoutePath path)
    ∧ ginRoutePath "/errors/\x7bid\x7d".data = "/errors/:id".data := by
  constructor
  · intro path
    constructor
    · show replaceAllChar (replaceAllChar path lbrace [colonChar]) rbrace [] = _
      rw [replaceAllChar_empty, replaceAllChar_single]
    · rfl
  · rfl

/-- C10: header parameter binding matches the declared wire name
case-insensitively — a stored header whose name differs from the requested
name only in letter case (over valid HTTP token bytes) is still found,
because both sides are canonicalized à la Go net/textproto. -/
theorem header_binding_case_insensitive :
    ∀ (h : List (List Nat × String)) (k1 k2 : List Nat) (v : String),
      k1.all isTokenByte = true →
      k2.all isTokenByte = true →
      k1.map lowerB = k2.map lowerB →
      headerGet (headerSet h k1 v) k2 = some v := by
  intro h k1 k2 v h1 h2 h3
  have hc : canonicalMIMEHeaderKey k1 = canonicalMIMEHeaderKey k2 := by
    unfold canonicalMIMEHeaderKey
    rw [if_pos h1, if_pos h2]
    exact canonAux_congr k1 k2 true h3
  unfold headerGet headerSet
  rw [← hc]
  simp [List.find?]

/-- C10 witness: a request header sent as "string" binds to the field
declared with wire name "String". -/
theorem header_binding_case_insensitive_witness :
    ((strBytes "string").all isTokenByte = true)
    ∧ ((strBytes "String").all isTokenByte = true)
    ∧ (strBytes "string").map lowerB = (strBytes "String").map lowerB
    ∧ headerGet (headerSet [] (strBytes "string") "baz") (strBytes "String") = some "baz" := by
  refine ⟨by decide, by decide, by decide, ?_⟩
  exact header_binding_case_insensitive [] (strBytes "string") (strBytes "String") "baz"
    (by decide) (by decide) (by decide)
